import Mathlib

/-!
Shallow embedding of the dimension-specialized rotation-matrix code
(2D and 3D rotations) over exact real scalars.

The scalar type `N : Real` of the source is modelled by `ℝ`; the external
scalar capability's `sin_cos`, `acos` and `atan2` are the mathematical
`Real.sin`/`Real.cos`, `Real.arccos` and the complex argument, and the
floating-point `default_epsilon` of the exact real field is `0`.
Matrices are `Matrix (Fin n) (Fin n) ℝ`, built row-major exactly as the
source's `SquareMatrix::new` calls; column vectors are `Fin 3 → ℝ`.
-/

noncomputable section

/-- Modelled from the spec: the scalar capability's `atan2(y, x)`; over exact
reals this is the argument of the complex number `x + y·i`, in `(-π, π]`. -/
def atan2 (y x : ℝ) : ℝ := Complex.arg (Complex.ofReal x + Complex.ofReal y * Complex.I)

/-- Column vectors with three components (the external vector capability). -/
abbrev Vec3 := Fin 3 → ℝ

/-- Modelled from the spec: the vector capability's dot product. -/
def dot3 (a b : Vec3) : ℝ := a 0 * b 0 + a 1 * b 1 + a 2 * b 2

/-- Modelled from the spec: the vector capability's 3D cross product. -/
def cross3 (a b : Vec3) : Vec3 :=
  ![a 1 * b 2 - a 2 * b 1, a 2 * b 0 - a 0 * b 2, a 0 * b 1 - a 1 * b 0]

/-- Modelled from the spec: the vector capability's Euclidean norm. -/
def norm3 (v : Vec3) : ℝ := Real.sqrt (dot3 v v)

/-- Modelled from the spec: the vector capability's `normalize`, dividing each
component by the norm. -/
def normalize3 (v : Vec3) : Vec3 := fun i => v i / norm3 v

/-- Modelled from the spec: `N::default_epsilon()`; the exact real scalar model
has a zero rounding epsilon. -/
def defaultEpsilon : ℝ := 0

/-- Modelled from the spec: the zero-tolerant `try_normalize(min_norm)`, which
returns no answer when the norm does not exceed the threshold. -/
def tryNormalize3 (v : Vec3) (minNorm : ℝ) : Option Vec3 :=
  if norm3 v ≤ minNorm then none else some (normalize3 v)

/-- Modelled from the spec: `Unit::try_new(v, min_norm)`, returning the
normalized vector when the norm exceeds the threshold and no answer otherwise. -/
def unitTryNew (v : Vec3) (minNorm : ℝ) : Option Vec3 :=
  if norm3 v ≤ minNorm then none else some (normalize3 v)

/-- The 2D rotation type: a struct holding only its 2×2 matrix. -/
structure Rotation2 where
  matrix : Matrix (Fin 2) (Fin 2) ℝ

/-- The 3D rotation type: a struct holding only its 3×3 matrix. -/
structure Rotation3 where
  matrix : Matrix (Fin 3) (Fin 3) ℝ

/-- The unchecked escape-hatch constructor wrapping a matrix. -/
def Rotation2.from_matrix_unchecked (m : Matrix (Fin 2) (Fin 2) ℝ) : Rotation2 := ⟨m⟩

/-- `RotationBase::<N, U2>::new(angle)`: matrix `[[cos, -sin], [sin, cos]]`. -/
def Rotation2.new (angle : ℝ) : Rotation2 :=
  Rotation2.from_matrix_unchecked
    !![Real.cos angle, -Real.sin angle; Real.sin angle, Real.cos angle]

/-- `RotationBase::<N, U2>::angle()`: `atan2(matrix[(1,0)], matrix[(0,0)])`. -/
def Rotation2.angle (R : Rotation2) : ℝ := atan2 (R.matrix 1 0) (R.matrix 0 0)

/-- Modelled from the spec: `inverse()` of a rotation is the transpose of its
matrix (defined outside the supplied source). -/
def Rotation2.inverse (R : Rotation2) : Rotation2 := ⟨R.matrix.transpose⟩

/-- Modelled from the spec: composition of rotations is matrix multiplication. -/
instance : Mul Rotation2 := ⟨fun a b => ⟨a.matrix * b.matrix⟩⟩

/-- `RotationBase::<N, U2>::rotation_to(other)`: `other * self.inverse()`. -/
def Rotation2.rotation_to (self other : Rotation2) : Rotation2 := other * self.inverse

/-- `RotationBase::<N, U2>::powf(n)`: `new(self.angle() * n)`. -/
def Rotation2.powf (R : Rotation2) (n : ℝ) : Rotation2 := Rotation2.new (R.angle * n)

/-- `RotationBase::<N, U2>::angle_to(other)`: `rotation_to(other).angle()`. -/
def Rotation2.angle_to (self other : Rotation2) : ℝ := (self.rotation_to other).angle

/-- The unchecked escape-hatch constructor wrapping a matrix. -/
def Rotation3.from_matrix_unchecked (m : Matrix (Fin 3) (Fin 3) ℝ) : Rotation3 := ⟨m⟩

/-- Modelled from the spec: the identity rotation (identity matrix). -/
def Rotation3.identity : Rotation3 := ⟨1⟩

/-- `RotationBase::<N, U3>::from_axis_angle(axis, angle)`: identity when the
angle is zero, otherwise Rodrigues' formula exactly as written in the source. -/
def Rotation3.from_axis_angle (axis : Vec3) (angle : ℝ) : Rotation3 :=
  if angle = 0 then
    Rotation3.identity
  else
    let ux := axis 0
    let uy := axis 1
    let uz := axis 2
    let sqx := ux * ux
    let sqy := uy * uy
    let sqz := uz * uz
    let sin := Real.sin angle
    let cos := Real.cos angle
    let one_m_cos := 1 - cos
    Rotation3.from_matrix_unchecked
      !![sqx + (1 - sqx) * cos, ux * uy * one_m_cos - uz * sin, ux * uz * one_m_cos + uy * sin;
         ux * uy * one_m_cos + uz * sin, sqy + (1 - sqy) * cos, uy * uz * one_m_cos - ux * sin;
         ux * uz * one_m_cos - uy * sin, uy * uz * one_m_cos + ux * sin, sqz + (1 - sqz) * cos]

/-- `RotationBase::<N, U3>::new(axisangle)` via `Unit::new_and_get`: the axis is
the unconditionally normalized input and the angle is the input's norm. -/
def Rotation3.new (axisangle : Vec3) : Rotation3 :=
  Rotation3.from_axis_angle (normalize3 axisangle) (norm3 axisangle)

/-- `RotationBase::<N, U3>::from_scaled_axis(axisangle)`: delegates to `new`. -/
def Rotation3.from_scaled_axis (axisangle : Vec3) : Rotation3 := Rotation3.new axisangle

/-- `RotationBase::<N, U3>::from_euler_angles(roll, pitch, yaw)`: the closed-form
roll-pitch-yaw matrix exactly as written in the source. -/
def Rotation3.from_euler_angles (roll pitch yaw : ℝ) : Rotation3 :=
  let sr := Real.sin roll
  let cr := Real.cos roll
  let sp := Real.sin pitch
  let cp := Real.cos pitch
  let sy := Real.sin yaw
  let cy := Real.cos yaw
  Rotation3.from_matrix_unchecked
    !![cy * cp, cy * sp * sr - sy * cr, cy * sp * cr + sy * sr;
       sy * cp, sy * sp * sr + cy * cr, sy * sp * cr - cy * sr;
       -sp, cp * sr, cp * cr]

/-- `RotationBase::<N, U3>::new_observer_frame(dir, up)`: orthonormal basis with
`zaxis = normalize(dir)`, `xaxis = normalize(up × zaxis)`,
`yaxis = normalize(zaxis × xaxis)` as the matrix columns. -/
def Rotation3.new_observer_frame (dir up : Vec3) : Rotation3 :=
  let zaxis := normalize3 dir
  let xaxis := normalize3 (cross3 up zaxis)
  let yaxis := normalize3 (cross3 zaxis xaxis)
  Rotation3.from_matrix_unchecked
    !![xaxis 0, yaxis 0, zaxis 0;
       xaxis 1, yaxis 1, zaxis 1;
       xaxis 2, yaxis 2, zaxis 2]

/-- Modelled from the spec: `inverse()` of a rotation is the transpose of its
matrix (defined outside the supplied source). -/
def Rotation3.inverse (R : Rotation3) : Rotation3 := ⟨R.matrix.transpose⟩

/-- `RotationBase::<N, U3>::look_at_rh(dir, up)`:
`new_observer_frame(-dir, up).inverse()`. -/
def Rotation3.look_at_rh (dir up : Vec3) : Rotation3 :=
  (Rotation3.new_observer_frame (-dir) up).inverse

/-- `RotationBase::<N, U3>::look_at_lh(dir, up)`:
`new_observer_frame(dir, up).inverse()`. -/
def Rotation3.look_at_lh (dir up : Vec3) : Rotation3 :=
  (Rotation3.new_observer_frame dir up).inverse

/-- `RotationBase::<N, U3>::scaled_rotation_between(a, b, n)`: the source's
control flow with try-normalization of both inputs, the cross-product axis
test, and the antiparallel branch returning no answer. -/
def Rotation3.scaled_rotation_between (a b : Vec3) (n : ℝ) : Option Rotation3 :=
  match tryNormalize3 a 0, tryNormalize3 b 0 with
  | some na, some nb =>
    let c := cross3 na nb
    match unitTryNew c defaultEpsilon with
    | some axis => some (Rotation3.from_axis_angle axis (Real.arccos (dot3 na nb) * n))
    | none =>
      if dot3 na nb < 0 then
        none
      else
        some Rotation3.identity
  | _, _ => some Rotation3.identity

/-- `RotationBase::<N, U3>::rotation_between(a, b)`:
`scaled_rotation_between(a, b, 1)`. -/
def Rotation3.rotation_between (a b : Vec3) : Option Rotation3 :=
  Rotation3.scaled_rotation_between a b 1

/-- The value `(trace(matrix) - 1) / 2` that `angle()` feeds to `acos`. -/
def Rotation3.acosArg (R : Rotation3) : ℝ :=
  (R.matrix 0 0 + R.matrix 1 1 + R.matrix 2 2 - 1) / 2

/-- `RotationBase::<N, U3>::angle()`: `acos((trace(matrix) - 1) / 2)`, with no
clamping of the argument. -/
def Rotation3.angle (R : Rotation3) : ℝ := Real.arccos R.acosArg

/-- `RotationBase::<N, U3>::axis()`: normalization of the skew-symmetric part
`(m[2,1]-m[1,2], m[0,2]-m[2,0], m[1,0]-m[0,1])` via `Unit::try_new`. -/
def Rotation3.axis (R : Rotation3) : Option Vec3 :=
  unitTryNew
    ![R.matrix 2 1 - R.matrix 1 2, R.matrix 0 2 - R.matrix 2 0, R.matrix 1 0 - R.matrix 0 1]
    defaultEpsilon

/-- Modelled from the spec: composition of rotations is matrix multiplication. -/
instance : Mul Rotation3 := ⟨fun a b => ⟨a.matrix * b.matrix⟩⟩

/-- `RotationBase::<N, U3>::rotation_to(other)`: `other * self.inverse()`. -/
def Rotation3.rotation_to (self other : Rotation3) : Rotation3 := other * self.inverse

/-- `RotationBase::<N, U3>::angle_to(other)`: `rotation_to(other).angle()`. -/
def Rotation3.angle_to (self other : Rotation3) : ℝ := (self.rotation_to other).angle

/-- `RotationBase::<N, U3>::powf(n)`: axis-angle power when the axis exists,
otherwise `diag(-1,-1,-1)` (via `from_diagonal_element(-1)`) when
`matrix[(0,0)] < 0`, otherwise identity. -/
def Rotation3.powf (R : Rotation3) (n : ℝ) : Rotation3 :=
  match R.axis with
  | some axis => Rotation3.from_axis_angle axis (R.angle * n)
  | none =>
    if R.matrix 0 0 < 0 then
      Rotation3.from_matrix_unchecked (Matrix.diagonal fun _ => -1)
    else
      Rotation3.identity

/-! Helper lemmas about the vector capability. -/

theorem dot3_self_nonneg (v : Vec3) : 0 ≤ dot3 v v := by
  unfold dot3
  nlinarith [mul_self_nonneg (v 0), mul_self_nonneg (v 1), mul_self_nonneg (v 2)]

theorem norm3_eq_zero_iff (v : Vec3) : norm3 v = 0 ↔ v = 0 := by
  unfold norm3
  rw [Real.sqrt_eq_zero (dot3_self_nonneg v)]
  constructor
  · intro h
    unfold dot3 at h
    funext i
    fin_cases i
    · show v 0 = 0
      have h0 : v 0 * v 0 = 0 := by
        nlinarith [mul_self_nonneg (v 0), mul_self_nonneg (v 1), mul_self_nonneg (v 2)]
      exact mul_self_eq_zero.mp h0
    · show v 1 = 0
      have h0 : v 1 * v 1 = 0 := by
        nlinarith [mul_self_nonneg (v 0), mul_self_nonneg (v 1), mul_self_nonneg (v 2)]
      exact mul_self_eq_zero.mp h0
    · show v 2 = 0
      have h0 : v 2 * v 2 = 0 := by
        nlinarith [mul_self_nonneg (v 0), mul_self_nonneg (v 1), mul_self_nonneg (v 2)]
      exact mul_self_eq_zero.mp h0
  · intro h
    subst h
    simp [dot3]

theorem norm3_pos (v : Vec3) (h : v ≠ 0) : 0 < norm3 v := by
  rcases lt_or_eq_of_le (Real.sqrt_nonneg (dot3 v v)) with h1 | h1
  · exact h1
  · exact absurd ((norm3_eq_zero_iff v).mp h1.symm) h

theorem norm3_smul_unit (u : Vec3) (c : ℝ) (hu : dot3 u u = 1) :
    norm3 (fun i => c * u i) = |c| := by
  unfold norm3
  have h : dot3 (fun i => c * u i) (fun i => c * u i) = c ^ 2 * dot3 u u := by
    unfold dot3
    ring
  rw [h, hu, mul_one, Real.sqrt_sq_eq_abs]

theorem unitTryNew_smul_pos (u : Vec3) (c : ℝ) (hu : dot3 u u = 1) (hc : 0 < c) :
    unitTryNew (fun i => c * u i) 0 = some u := by
  unfold unitTryNew
  rw [norm3_smul_unit u c hu, abs_of_pos hc, if_neg (not_le.mpr hc)]
  congr 1
  funext i
  unfold normalize3
  rw [norm3_smul_unit u c hu, abs_of_pos hc]
  field_simp

theorem unitTryNew_smul_neg (u : Vec3) (c : ℝ) (hu : dot3 u u = 1) (hc : c < 0) :
    unitTryNew (fun i => c * u i) 0 = some (-u) := by
  unfold unitTryNew
  rw [norm3_smul_unit u c hu, abs_of_neg hc, if_neg (not_le.mpr (by linarith))]
  congr 1
  funext i
  unfold normalize3
  rw [norm3_smul_unit u c hu, abs_of_neg hc, Pi.neg_apply]
  have hc' : c ≠ 0 := ne_of_lt hc
  show c * u i / -c = -u i
  rw [mul_comm c (u i), div_neg, mul_div_assoc, div_self hc', mul_one]

theorem unitTryNew_zero_vec : unitTryNew 0 0 = none := by
  unfold unitTryNew
  rw [if_pos]
  rw [(norm3_eq_zero_iff 0).mpr rfl]

theorem unitTryNew_eq_none (v : Vec3) (h : v = 0) : unitTryNew v 0 = none := by
  subst h
  exact unitTryNew_zero_vec

theorem unitTryNew_eq_some (v : Vec3) (h : v ≠ 0) : unitTryNew v 0 = some (normalize3 v) := by
  unfold unitTryNew
  rw [if_neg (not_le.mpr (norm3_pos v h))]

theorem tryNormalize3_eq_none (v : Vec3) (h : v = 0) : tryNormalize3 v 0 = none := by
  subst h
  unfold tryNormalize3
  rw [if_pos]
  rw [(norm3_eq_zero_iff 0).mpr rfl]

theorem tryNormalize3_eq_some (v : Vec3) (h : v ≠ 0) :
    tryNormalize3 v 0 = some (normalize3 v) := by
  unfold tryNormalize3
  rw [if_neg (not_le.mpr (norm3_pos v h))]

/-! Helper lemmas about the 2D rotation operations. -/

theorem atan2_sin_cos (θ : ℝ) (h : θ ∈ Set.Ioc (-Real.pi) Real.pi) :
    atan2 (Real.sin θ) (Real.cos θ) = θ := by
  unfold atan2
  rw [Complex.ofReal_cos, Complex.ofReal_sin]
  exact Complex.arg_cos_add_sin_mul_I h

theorem Rotation2.angle_new (θ : ℝ) (h : θ ∈ Set.Ioc (-Real.pi) Real.pi) :
    (Rotation2.new θ).angle = θ := by
  have h10 : (Rotation2.new θ).matrix 1 0 = Real.sin θ := by
    simp [Rotation2.new, Rotation2.from_matrix_unchecked]
  have h00 : (Rotation2.new θ).matrix 0 0 = Real.cos θ := by
    simp [Rotation2.new, Rotation2.from_matrix_unchecked]
  rw [Rotation2.angle, h10, h00]
  exact atan2_sin_cos θ h

theorem Rotation2.angle_mem_Ioc (R : Rotation2) :
    R.angle ∈ Set.Ioc (-Real.pi) Real.pi := by
  rw [Rotation2.angle, atan2]
  exact Complex.arg_mem_Ioc _

theorem Rotation2.new_add_two_pi (θ : ℝ) :
    Rotation2.new (θ + 2 * Real.pi) = Rotation2.new θ := by
  unfold Rotation2.new
  rw [Real.cos_add_two_pi, Real.sin_add_two_pi]

theorem Rotation2.powf_powf (R : Rotation2) (a b : ℝ)
    (h : R.angle * a ∈ Set.Ioc (-Real.pi) Real.pi) :
    (R.powf a).powf b = R.powf (a * b) := by
  unfold Rotation2.powf
  rw [Rotation2.angle_new _ h, mul_assoc]

/-! Helper lemmas about the 3D rotation operations. -/

theorem Rotation3.acosArg_from_axis_angle (u : Vec3) (θ : ℝ) (hu : dot3 u u = 1) :
    (Rotation3.from_axis_angle u θ).acosArg = Real.cos θ := by
  unfold Rotation3.from_axis_angle
  by_cases hθ : θ = 0
  · subst hθ
    rw [if_pos rfl]
    simp [Rotation3.identity, Rotation3.acosArg, Matrix.one_apply]
  · rw [if_neg hθ]
    unfold dot3 at hu
    simp only [Rotation3.acosArg, Rotation3.from_matrix_unchecked]
    norm_num
    linear_combination ((1 - Real.cos θ) / 2) * hu

theorem Rotation3.angle_from_axis_angle (u : Vec3) (θ : ℝ) (hu : dot3 u u = 1)
    (h0 : 0 ≤ θ) (hπ : θ ≤ Real.pi) :
    (Rotation3.from_axis_angle u θ).angle = θ := by
  rw [Rotation3.angle, Rotation3.acosArg_from_axis_angle u θ hu]
  exact Real.arccos_cos h0 hπ

theorem Rotation3.axis_from_axis_angle_skew (u : Vec3) (θ : ℝ) (hθ : θ ≠ 0) :
    (Rotation3.from_axis_angle u θ).axis
      = unitTryNew (fun i => 2 * Real.sin θ * u i) 0 := by
  have hv : (![(Rotation3.from_axis_angle u θ).matrix 2 1
          - (Rotation3.from_axis_angle u θ).matrix 1 2,
        (Rotation3.from_axis_angle u θ).matrix 0 2
          - (Rotation3.from_axis_angle u θ).matrix 2 0,
        (Rotation3.from_axis_angle u θ).matrix 1 0
          - (Rotation3.from_axis_angle u θ).matrix 0 1] : Vec3)
      = fun i => 2 * Real.sin θ * u i := by
    funext i
    fin_cases i <;>
      simp [Rotation3.from_axis_angle, hθ, Rotation3.from_matrix_unchecked] <;>
      ring
  unfold Rotation3.axis
  rw [hv]
  rfl

theorem Rotation3.axis_from_axis_angle_pos (u : Vec3) (θ : ℝ) (hu : dot3 u u = 1)
    (hs : 0 < Real.sin θ) :
    (Rotation3.from_axis_angle u θ).axis = some u := by
  have hθ : θ ≠ 0 := by
    intro h
    rw [h, Real.sin_zero] at hs
    exact lt_irrefl 0 hs
  rw [Rotation3.axis_from_axis_angle_skew u θ hθ]
  exact unitTryNew_smul_pos u _ hu (by linarith)

theorem Rotation3.axis_from_axis_angle_neg (u : Vec3) (θ : ℝ) (hu : dot3 u u = 1)
    (hs : Real.sin θ < 0) :
    (Rotation3.from_axis_angle u θ).axis = some (-u) := by
  have hθ : θ ≠ 0 := by
    intro h
    rw [h, Real.sin_zero] at hs
    exact lt_irrefl 0 hs
  rw [Rotation3.axis_from_axis_angle_skew u θ hθ]
  exact unitTryNew_smul_neg u _ hu (by linarith)

theorem Rotation3.powf_from_axis_angle (u : Vec3) (θ n : ℝ) (hu : dot3 u u = 1)
    (h0 : 0 < θ) (hπ : θ < Real.pi) :
    (Rotation3.from_axis_angle u θ).powf n = Rotation3.from_axis_angle u (θ * n) := by
  unfold Rotation3.powf
  rw [Rotation3.axis_from_axis_angle_pos u θ hu (Real.sin_pos_of_pos_of_lt_pi h0 hπ),
    Rotation3.angle_from_axis_angle u θ hu h0.le hπ.le]

/-! Helper lemmas for the branches of `scaled_rotation_between`. -/

theorem Rotation3.srb_degenerate (a b : Vec3) (n : ℝ) (h : a = 0 ∨ b = 0) :
    Rotation3.scaled_rotation_between a b n = some Rotation3.identity := by
  unfold Rotation3.scaled_rotation_between
  rcases h with h | h
  · rw [tryNormalize3_eq_none a h]
  · rw [tryNormalize3_eq_none b h]
    cases tryNormalize3 a 0 <;> rfl

theorem Rotation3.srb_axis (a b : Vec3) (n : ℝ) (ha : a ≠ 0) (hb : b ≠ 0)
    (hc : cross3 (normalize3 a) (normalize3 b) ≠ 0) :
    Rotation3.scaled_rotation_between a b n
      = some (Rotation3.from_axis_angle
          (normalize3 (cross3 (normalize3 a) (normalize3 b)))
          (Real.arccos (dot3 (normalize3 a) (normalize3 b)) * n)) := by
  unfold Rotation3.scaled_rotation_between
  simp only [tryNormalize3_eq_some a ha, tryNormalize3_eq_some b hb]
  rw [show defaultEpsilon = (0 : ℝ) from rfl, unitTryNew_eq_some _ hc]

theorem Rotation3.srb_antiparallel (a b : Vec3) (n : ℝ) (ha : a ≠ 0) (hb : b ≠ 0)
    (hc : cross3 (normalize3 a) (normalize3 b) = 0)
    (hd : dot3 (normalize3 a) (normalize3 b) < 0) :
    Rotation3.scaled_rotation_between a b n = none := by
  unfold Rotation3.scaled_rotation_between
  simp only [tryNormalize3_eq_some a ha, tryNormalize3_eq_some b hb]
  rw [show defaultEpsilon = (0 : ℝ) from rfl, unitTryNew_eq_none _ hc]
  simp only [if_pos hd]

theorem Rotation3.srb_parallel (a b : Vec3) (n : ℝ) (ha : a ≠ 0) (hb : b ≠ 0)
    (hc : cross3 (normalize3 a) (normalize3 b) = 0)
    (hd : 0 ≤ dot3 (normalize3 a) (normalize3 b)) :
    Rotation3.scaled_rotation_between a b n = some Rotation3.identity := by
  unfold Rotation3.scaled_rotation_between
  simp only [tryNormalize3_eq_some a ha, tryNormalize3_eq_some b hb]
  rw [show defaultEpsilon = (0 : ℝ) from rfl, unitTryNew_eq_none _ hc]
  simp only [if_neg (not_lt.mpr hd)]

/-! Concrete vector computations used by the degenerate rotation-between
scenario and the witnesses. -/

theorem vec_e1_ne_zero : (![1, 0, 0] : Vec3) ≠ 0 := by
  intro h
  have h0 := congrFun h 0
  norm_num at h0

theorem vec_neg_e1_ne_zero : (![-1, 0, 0] : Vec3) ≠ 0 := by
  intro h
  have h0 := congrFun h 0
  norm_num at h0

theorem normalize3_e1 : normalize3 ![1, 0, 0] = (![1, 0, 0] : Vec3) := by
  funext i
  unfold normalize3 norm3 dot3
  norm_num

theorem normalize3_neg_e1 : normalize3 ![-1, 0, 0] = (![-1, 0, 0] : Vec3) := by
  funext i
  unfold normalize3 norm3 dot3
  norm_num

theorem cross3_e1_neg_e1 : cross3 ![1, 0, 0] ![-1, 0, 0] = (0 : Vec3) := by
  funext i
  fin_cases i <;> norm_num [cross3]

theorem cross3_e1_e1 : cross3 ![1, 0, 0] ![1, 0, 0] = (0 : Vec3) := by
  funext i
  fin_cases i <;> norm_num [cross3]

theorem dot3_e1_neg_e1 : dot3 ![1, 0, 0] ![-1, 0, 0] = -1 := by
  norm_num [dot3]

theorem dot3_e1_e1 : dot3 ![1, 0, 0] ![1, 0, 0] = 1 := by
  norm_num [dot3]

/-! Claim theorems. -/

/-- C2 (counterexample): `angle()` feeds `(trace(matrix) - 1) / 2` to `acos`
without clamping it to `[-1, 1]`: on the input matrix `diag(2, 2, 2)` the value
fed to `acos` is `5/2`, outside the `acos` domain, so the claimed clamping does
not happen for every input matrix. -/
theorem C2_no_clamp_counterexample :
    Rotation3.acosArg (Rotation3.from_matrix_unchecked !![2, 0, 0; 0, 2, 0; 0, 0, 2])
      ∉ Set.Icc (-1 : ℝ) 1 := by
  norm_num [Rotation3.acosArg, Rotation3.from_matrix_unchecked, Set.mem_Icc]

/-- C2 (amended): `angle()` applies `acos` directly to `(trace(matrix) - 1) / 2`
with no clamping; for every rotation built by `from_axis_angle` from a unit axis
the argument equals `cos θ` and therefore lies in `[-1, 1]`, so no `acos` domain
violation occurs for matrices satisfying the rotation invariant. -/
theorem C2_trace_cos_in_domain :
    (∀ R : Rotation3, R.angle = Real.arccos R.acosArg) ∧
    (∀ (u : Vec3) (θ : ℝ), dot3 u u = 1 →
        (Rotation3.from_axis_angle u θ).acosArg ∈ Set.Icc (-1 : ℝ) 1) := by
  constructor
  · intro R
    rfl
  · intro u θ hu
    rw [Rotation3.acosArg_from_axis_angle u θ hu]
    exact ⟨Real.neg_one_le_cos θ, Real.cos_le_one θ⟩

/-- C2 (witness): the amended statement instantiated on the unit axis
`(0, 0, 1)` and angle `π`. -/
theorem C2_trace_cos_in_domain_witness :
    dot3 ![0, 0, 1] ![0, 0, 1] = 1 ∧
    (Rotation3.from_axis_angle ![0, 0, 1] Real.pi).acosArg ∈ Set.Icc (-1 : ℝ) 1 :=
  ⟨by norm_num [dot3],
   C2_trace_cos_in_domain.2 ![0, 0, 1] Real.pi (by norm_num [dot3])⟩

/-- C4: `scaled_rotation_between` returns the identity when either input is the
zero vector, the axis-angle rotation when the cross product of the normalized
inputs is nonzero, no answer when the normalized inputs are collinear with
negative dot product, and the identity when collinear with nonnegative dot
product; in particular `(1,0,0)` against `(-1,0,0)` gives no answer and
`(1,0,0)` against itself gives the identity. -/
theorem C4_scaled_rotation_between_cases :
    (∀ (a b : Vec3) (n : ℝ), a = 0 ∨ b = 0 →
        Rotation3.scaled_rotation_between a b n = some Rotation3.identity) ∧
    (∀ (a b : Vec3) (n : ℝ), a ≠ 0 → b ≠ 0 →
        cross3 (normalize3 a) (normalize3 b) ≠ 0 →
        Rotation3.scaled_rotation_between a b n
          = some (Rotation3.from_axis_angle
              (normalize3 (cross3 (normalize3 a) (normalize3 b)))
              (Real.arccos (dot3 (normalize3 a) (normalize3 b)) * n))) ∧
    (∀ (a b : Vec3) (n : ℝ), a ≠ 0 → b ≠ 0 →
        cross3 (normalize3 a) (normalize3 b) = 0 →
        dot3 (normalize3 a) (normalize3 b) < 0 →
        Rotation3.scaled_rotation_between a b n = none) ∧
    (∀ (a b : Vec3) (n : ℝ), a ≠ 0 → b ≠ 0 →
        cross3 (normalize3 a) (normalize3 b) = 0 →
        0 ≤ dot3 (normalize3 a) (normalize3 b) →
        Rotation3.scaled_rotation_between a b n = some Rotation3.identity) ∧
    Rotation3.scaled_rotation_between ![1, 0, 0] ![-1, 0, 0] 1 = none ∧
    Rotation3.scaled_rotation_between ![1, 0, 0] ![1, 0, 0] 1 = some Rotation3.identity := by
  refine ⟨Rotation3.srb_degenerate, Rotation3.srb_axis, Rotation3.srb_antiparallel,
    Rotation3.srb_parallel, ?_, ?_⟩
  · apply Rotation3.srb_antiparallel _ _ _ vec_e1_ne_zero vec_neg_e1_ne_zero
    · rw [normalize3_e1, normalize3_neg_e1]
      exact cross3_e1_neg_e1
    · rw [normalize3_e1, normalize3_neg_e1, dot3_e1_neg_e1]
      norm_num
  · apply Rotation3.srb_parallel _ _ _ vec_e1_ne_zero vec_e1_ne_zero
    · rw [normalize3_e1]
      exact cross3_e1_e1
    · rw [normalize3_e1, dot3_e1_e1]
      norm_num

/-- C4 (witness): the antiparallel case instantiated on the concrete inputs
`(1,0,0)`, `(-1,0,0)` with scale `1`, all hypotheses discharged by computation. -/
theorem C4_scaled_rotation_between_cases_witness :
    (![1, 0, 0] : Vec3) ≠ 0 ∧ (![-1, 0, 0] : Vec3) ≠ 0 ∧
    cross3 (normalize3 ![1, 0, 0]) (normalize3 ![-1, 0, 0]) = 0 ∧
    dot3 (normalize3 ![1, 0, 0]) (normalize3 ![-1, 0, 0]) < 0 ∧
    Rotation3.scaled_rotation_between ![1, 0, 0] ![-1, 0, 0] 1 = none := by
  have hc : cross3 (normalize3 ![1, 0, 0]) (normalize3 ![-1, 0, 0]) = 0 := by
    rw [normalize3_e1, normalize3_neg_e1]
    exact cross3_e1_neg_e1
  have hd : dot3 (normalize3 ![1, 0, 0]) (normalize3 ![-1, 0, 0]) < 0 := by
    rw [normalize3_e1, normalize3_neg_e1, dot3_e1_neg_e1]
    norm_num
  exact ⟨vec_e1_ne_zero, vec_neg_e1_ne_zero, hc, hd,
    C4_scaled_rotation_between_cases.2.2.1 ![1, 0, 0] ![-1, 0, 0] 1
      vec_e1_ne_zero vec_neg_e1_ne_zero hc hd⟩

/-- C5: `from_axis_angle(axis, 0)` is exactly the identity rotation for every
axis vector, by the explicit zero-angle branch. -/
theorem C5_from_axis_angle_zero (axis : Vec3) :
    Rotation3.from_axis_angle axis 0 = Rotation3.identity := by
  unfold Rotation3.from_axis_angle
  rw [if_pos rfl]

/-- C6: for a unit axis `u` and an angle `θ ∈ (0, π)`, the rotation
`from_axis_angle(u, θ)` decomposes back to its inputs: `axis()` returns `u`
and `angle()` returns `θ`. -/
theorem C6_axis_angle_round_trip (u : Vec3) (θ : ℝ) (hu : dot3 u u = 1)
    (h0 : 0 < θ) (hπ : θ < Real.pi) :
    (Rotation3.from_axis_angle u θ).axis = some u ∧
    (Rotation3.from_axis_angle u θ).angle = θ :=
  ⟨Rotation3.axis_from_axis_angle_pos u θ hu (Real.sin_pos_of_pos_of_lt_pi h0 hπ),
   Rotation3.angle_from_axis_angle u θ hu h0.le hπ.le⟩

/-- C6 (witness): the round trip instantiated on the unit axis `(0, 0, 1)` and
angle `π/2`. -/
theorem C6_axis_angle_round_trip_witness :
    dot3 ![0, 0, 1] ![0, 0, 1] = 1 ∧ 0 < Real.pi / 2 ∧ Real.pi / 2 < Real.pi ∧
    ((Rotation3.from_axis_angle ![0, 0, 1] (Real.pi / 2)).axis = some ![0, 0, 1] ∧
      (Rotation3.from_axis_angle ![0, 0, 1] (Real.pi / 2)).angle = Real.pi / 2) :=
  ⟨by norm_num [dot3], by linarith [Real.pi_pos], by linarith [Real.pi_pos],
   C6_axis_angle_round_trip ![0, 0, 1] (Real.pi / 2) (by norm_num [dot3])
     (by linarith [Real.pi_pos]) (by linarith [Real.pi_pos])⟩

/-- C7: for rotations of equal dimension satisfying the orthogonality
invariant, `rotation_to` composed with the first rotation gives the second, and
`rotation_to` is computed as `other * inverse(self)` with the inverse being the
matrix transpose. -/
theorem C7_rotation_to_composition :
    (∀ R1 R2 : Rotation2, R1.matrix * R1.matrix.transpose = 1 →
        R1.rotation_to R2 * R1 = R2 ∧
        R1.rotation_to R2 = R2 * R1.inverse ∧
        (R1.inverse).matrix = R1.matrix.transpose) ∧
    (∀ R1 R2 : Rotation3, R1.matrix * R1.matrix.transpose = 1 →
        R1.rotation_to R2 * R1 = R2 ∧
        R1.rotation_to R2 = R2 * R1.inverse ∧
        (R1.inverse).matrix = R1.matrix.transpose) := by
  constructor
  · intro R1 R2 h
    refine ⟨?_, rfl, rfl⟩
    have h' : R1.matrix.transpose * R1.matrix = 1 := Matrix.mul_eq_one_comm.mp h
    show Rotation2.mk (R2.matrix * R1.matrix.transpose * R1.matrix) = R2
    rw [Matrix.mul_assoc, h', Matrix.mul_one]
  · intro R1 R2 h
    refine ⟨?_, rfl, rfl⟩
    have h' : R1.matrix.transpose * R1.matrix = 1 := Matrix.mul_eq_one_comm.mp h
    show Rotation3.mk (R2.matrix * R1.matrix.transpose * R1.matrix) = R2
    rw [Matrix.mul_assoc, h', Matrix.mul_one]

/-- C7 (witness): the composition identity instantiated on identity rotations
in both dimensions. -/
theorem C7_rotation_to_composition_witness :
    ((Rotation2.from_matrix_unchecked 1).matrix
        * (Rotation2.from_matrix_unchecked 1).matrix.transpose = 1 ∧
      (Rotation2.from_matrix_unchecked 1).rotation_to (Rotation2.from_matrix_unchecked 1)
          * Rotation2.from_matrix_unchecked 1 = Rotation2.from_matrix_unchecked 1) ∧
    ((Rotation3.from_matrix_unchecked 1).matrix
        * (Rotation3.from_matrix_unchecked 1).matrix.transpose = 1 ∧
      (Rotation3.from_matrix_unchecked 1).rotation_to (Rotation3.from_matrix_unchecked 1)
          * Rotation3.from_matrix_unchecked 1 = Rotation3.from_matrix_unchecked 1) :=
  ⟨⟨by simp [Rotation2.from_matrix_unchecked],
    (C7_rotation_to_composition.1 _ _ (by simp [Rotation2.from_matrix_unchecked])).1⟩,
   ⟨by simp [Rotation3.from_matrix_unchecked],
    (C7_rotation_to_composition.2 _ _ (by simp [Rotation3.from_matrix_unchecked])).1⟩⟩

/-- C8: for every `θ ∈ (-π, π]`, `Rotation2D::new(θ).angle()` returns exactly
`θ`, and `angle()`, computed as `atan2(matrix[(1,0)], matrix[(0,0)])`, always
lies in `(-π, π]`. -/
theorem C8_angle_round_trip_2d :
    (∀ θ ∈ Set.Ioc (-Real.pi) Real.pi, (Rotation2.new θ).angle = θ) ∧
    (∀ R : Rotation2, R.angle ∈ Set.Ioc (-Real.pi) Real.pi) :=
  ⟨fun θ h => Rotation2.angle_new θ h, Rotation2.angle_mem_Ioc⟩

/-- C8 (witness): the round trip instantiated at `θ = 0`. -/
theorem C8_angle_round_trip_2d_witness :
    (0 : ℝ) ∈ Set.Ioc (-Real.pi) Real.pi ∧ (Rotation2.new 0).angle = 0 :=
  ⟨⟨neg_lt_zero.mpr Real.pi_pos, Real.pi_pos.le⟩,
   C8_angle_round_trip_2d.1 0 ⟨neg_lt_zero.mpr Real.pi_pos, Real.pi_pos.le⟩⟩

/-- C10: `angle()` always lies in `[0, π]` (the range of `acos`), and a 3D
rotation built with a negated angle `-θ`, `θ ∈ (0, π)`, decomposes to the
positive angle `θ` with the flipped axis `-u`. -/
theorem C10_angle_nonneg_axis_flip :
    (∀ R : Rotation3, R.angle ∈ Set.Icc 0 Real.pi) ∧
    (∀ (u : Vec3) (θ : ℝ), dot3 u u = 1 → 0 < θ → θ < Real.pi →
        (Rotation3.from_axis_angle u (-θ)).angle = θ ∧
        (Rotation3.from_axis_angle u (-θ)).axis = some (-u)) := by
  constructor
  · intro R
    exact ⟨Real.arccos_nonneg _, Real.arccos_le_pi _⟩
  · intro u θ hu h0 hπ
    constructor
    · rw [Rotation3.angle, Rotation3.acosArg_from_axis_angle u (-θ) hu, Real.cos_neg]
      exact Real.arccos_cos h0.le hπ.le
    · apply Rotation3.axis_from_axis_angle_neg u (-θ) hu
      rw [Real.sin_neg]
      have hs := Real.sin_pos_of_pos_of_lt_pi h0 hπ
      linarith

/-- C1: the degenerate branch of 3D `powf` violates the determinant invariant.
The π-rotation about the z-axis, built by `from_axis_angle((0,0,1), π)`, has no
extractable axis and a negative `matrix[(0,0)]`, so `powf` returns
`diag(-1,-1,-1) = -I`, whose determinant is `-1`, not `+1`. -/
theorem C1_powf_degenerate_det_neg :
    ((Rotation3.from_axis_angle ![0, 0, 1] Real.pi).powf (1 / 2)).matrix.det = -1 := by
  have hax : (Rotation3.from_axis_angle ![0, 0, 1] Real.pi).axis = none := by
    rw [Rotation3.axis_from_axis_angle_skew ![0, 0, 1] Real.pi Real.pi_ne_zero]
    have hv : (fun i => 2 * Real.sin Real.pi * (![0, 0, 1] : Vec3) i) = (0 : Vec3) := by
      funext i
      simp [Real.sin_pi]
    rw [hv]
    exact unitTryNew_zero_vec
  have hm00 : (Rotation3.from_axis_angle ![0, 0, 1] Real.pi).matrix 0 0 < 0 := by
    norm_num [Rotation3.from_axis_angle, Real.pi_ne_zero, Rotation3.from_matrix_unchecked,
      Real.cos_pi]
  simp only [Rotation3.powf, hax]
  rw [if_pos hm00]
  norm_num [Rotation3.from_matrix_unchecked, Matrix.det_diagonal, Finset.prod_const]

/-- C3 (counterexample): the power composition law fails in 2D under angle
wraparound: for `R = new(2π/3)`, `a = 2`, `b = 1/2`, the left side is the
rotation by `-π/3` while the right side is the rotation by `2π/3`. -/
theorem C3_powf_composition_counterexample :
    ((Rotation2.new (2 * Real.pi / 3)).powf 2).powf (1 / 2)
      ≠ (Rotation2.new (2 * Real.pi / 3)).powf (2 * (1 / 2)) := by
  have hπ := Real.pi_pos
  have h1 : (Rotation2.new (2 * Real.pi / 3)).angle = 2 * Real.pi / 3 :=
    Rotation2.angle_new _ ⟨by linarith, by linarith⟩
  have hL : ((Rotation2.new (2 * Real.pi / 3)).powf 2).powf (1 / 2)
      = Rotation2.new (-(Real.pi / 3)) := by
    unfold Rotation2.powf
    rw [h1]
    rw [show 2 * Real.pi / 3 * 2 = -(2 * Real.pi / 3) + 2 * Real.pi by ring]
    rw [Rotation2.new_add_two_pi]
    rw [Rotation2.angle_new _ ⟨by linarith, by linarith⟩]
    rw [show -(2 * Real.pi / 3) * (1 / 2) = -(Real.pi / 3) by ring]
  have hR : (Rotation2.new (2 * Real.pi / 3)).powf (2 * (1 / 2))
      = Rotation2.new (2 * Real.pi / 3) := by
    unfold Rotation2.powf
    rw [h1]
    rw [show 2 * Real.pi / 3 * (2 * (1 / 2)) = 2 * Real.pi / 3 by ring]
  intro heq
  rw [hL, hR] at heq
  have h00 := congrArg (fun R : Rotation2 => R.matrix 0 0) heq
  simp [Rotation2.new, Rotation2.from_matrix_unchecked] at h00
  rw [show (2 * Real.pi / 3 : ℝ) = Real.pi - Real.pi / 3 by ring,
    Real.cos_pi_sub, Real.cos_pi_div_three] at h00
  norm_num at h00

/-- C3 (amended): the power composition law `R.powf(a).powf(b) = R.powf(a*b)`
holds in 2D whenever the intermediate angle `angle(R)*a` stays in `(-π, π]`,
and in 3D for a rotation built from a unit axis and an angle `θ ∈ (0, π)`
whenever the intermediate angle `θ*a` stays in `(0, π)`; angle wraparound
outside these ranges breaks the law. -/
theorem C3_powf_composition_amended :
    (∀ (R : Rotation2) (a b : ℝ), R.angle * a ∈ Set.Ioc (-Real.pi) Real.pi →
        (R.powf a).powf b = R.powf (a * b)) ∧
    (∀ (u : Vec3) (θ a b : ℝ), dot3 u u = 1 → 0 < θ → θ < Real.pi →
        0 < θ * a → θ * a < Real.pi →
        ((Rotation3.from_axis_angle u θ).powf a).powf b
          = (Rotation3.from_axis_angle u θ).powf (a * b)) := by
  constructor
  · exact Rotation2.powf_powf
  · intro u θ a b hu h0 hπ ha0 haπ
    rw [Rotation3.powf_from_axis_angle u θ a hu h0 hπ,
      Rotation3.powf_from_axis_angle u (θ * a) b hu ha0 haπ,
      Rotation3.powf_from_axis_angle u θ (a * b) hu h0 hπ, mul_assoc]

/-- C3 (witness): the amended law instantiated in 2D at `R = new(0)`,
`a = b = 0` and in 3D on the unit axis `(0,0,1)` with `θ = π/2`, `a = b = 1`. -/
theorem C3_powf_composition_amended_witness :
    ((Rotation2.new 0).angle * 0 ∈ Set.Ioc (-Real.pi) Real.pi ∧
      ((Rotation2.new 0).powf 0).powf 0 = (Rotation2.new 0).powf (0 * 0)) ∧
    (dot3 ![0, 0, 1] ![0, 0, 1] = 1 ∧ 0 < Real.pi / 2 ∧ Real.pi / 2 < Real.pi ∧
      0 < Real.pi / 2 * 1 ∧ Real.pi / 2 * 1 < Real.pi ∧
      ((Rotation3.from_axis_angle ![0, 0, 1] (Real.pi / 2)).powf 1).powf 1
        = (Rotation3.from_axis_angle ![0, 0, 1] (Real.pi / 2)).powf (1 * 1)) := by
  have hmem : (Rotation2.new 0).angle * 0 ∈ Set.Ioc (-Real.pi) Real.pi := by
    rw [mul_zero]
    exact ⟨neg_lt_zero.mpr Real.pi_pos, Real.pi_pos.le⟩
  refine ⟨⟨hmem, C3_powf_composition_amended.1 _ 0 0 hmem⟩,
    ⟨by norm_num [dot3], by linarith [Real.pi_pos], by linarith [Real.pi_pos],
      by linarith [Real.pi_pos], by linarith [Real.pi_pos],
      C3_powf_composition_amended.2 ![0, 0, 1] (Real.pi / 2) 1 1 (by norm_num [dot3])
        (by linarith [Real.pi_pos]) (by linarith [Real.pi_pos])
        (by linarith [Real.pi_pos]) (by linarith [Real.pi_pos])⟩⟩

/-- C9: `look_at_rh(dir, up)` equals `new_observer_frame(-dir, up).inverse()`,
and on the canonical camera frame `dir = (0,0,-1)`, `up = (0,1,0)` it is
exactly the identity rotation. -/
theorem C9_look_at_rh_identity :
    (∀ dir up : Vec3, Rotation3.look_at_rh dir up
        = (Rotation3.new_observer_frame (-dir) up).inverse) ∧
    Rotation3.look_at_rh ![0, 0, -1] ![0, 1, 0] = Rotation3.identity := by
  constructor
  · intro dir up
    rfl
  · have hm : (Rotation3.new_observer_frame (-![0, 0, -1]) ![0, 1, 0]).matrix = 1 := by
      rw [Matrix.one_fin_three]
      ext i j
      fin_cases i <;> fin_cases j <;>
        norm_num [Rotation3.new_observer_frame, Rotation3.from_matrix_unchecked,
          normalize3, cross3, norm3, dot3]
    show Rotation3.mk
        (Rotation3.new_observer_frame (-![0, 0, -1]) ![0, 1, 0]).matrix.transpose
        = Rotation3.identity
    rw [hm, Matrix.transpose_one]
    rfl

/-- C10 (witness): the axis flip instantiated on the unit axis `(0, 0, 1)` and
angle `-π/2`. -/
theorem C10_angle_nonneg_axis_flip_witness :
    dot3 ![0, 0, 1] ![0, 0, 1] = 1 ∧ 0 < Real.pi / 2 ∧ Real.pi / 2 < Real.pi ∧
    ((Rotation3.from_axis_angle ![0, 0, 1] (-(Real.pi / 2))).angle = Real.pi / 2 ∧
      (Rotation3.from_axis_angle ![0, 0, 1] (-(Real.pi / 2))).axis = some (-![0, 0, 1])) :=
  ⟨by norm_num [dot3], by linarith [Real.pi_pos], by linarith [Real.pi_pos],
   C10_angle_nonneg_axis_flip.2 ![0, 0, 1] (Real.pi / 2) (by norm_num [dot3])
     (by linarith [Real.pi_pos]) (by linarith [Real.pi_pos])⟩

end
